import Mathlib

/-!
Verification of the RKO_Python log-aggregation subsystem and log parser.

This file is a shallow embedding of the repository's three source files:

* `src/rko/LogStrategy.py` — the `TerminalLogger`, `FileLogger`, `DualLogger`
  strategy classes, the `ParallelLogManager` and its listener worker loop,
  and the `WorkerLogger` producer handle;
* `src/RKO/Plots.py` — `HistoryPlotter.parse_log_file`, the "NEW BEST"
  log-line parser with its run-boundary detection.

Python exceptions are modelled with `Except` / `Option` result types, the
multiprocessing queue as an explicit FIFO list inside a small-step transition
system driven by an arbitrary interleaving of producer, stopper and consumer
events, and Python floats as exact rationals (`ℚ`) parsed from the decimal
digit strings that the source regex captures.
-/

/- ========================================================================
   Part 1: payloads and the print-call model shared by the logger strategies
   ======================================================================== -/

/-- A log payload: the `*args` (each value already rendered as text) and the
`**kwargs` of a `log(...)` call, forwarded verbatim through the system. -/
structure Payload where
  args : List String
  kwargs : List (String × String)
deriving DecidableEq

/-- Does the keyword mapping contain the key `k`? -/
def hasKey (k : String) (kw : List (String × String)) : Bool :=
  kw.any (fun q => q.1 == k)

/-- The keyword arguments accepted by Python's `print`. -/
def validPrintKw : List String := ["sep", "end", "file", "flush"]

/-- Python call semantics for `print(*args, **kwargs, extra=...)`: the call
raises `TypeError` when `kwargs` already binds the keyword `extra` (duplicate
keyword argument) or when it carries a keyword `print` does not accept.  In
either case the error is raised before anything is written. -/
def printCallFails (kw : List (String × String)) (extra : String) : Bool :=
  hasKey extra kw || kw.any (fun q => !(validPrintKw.contains q.1))

/-- Errors of the embedded Python code. -/
inductive PyErr where
  | valueError (s : String)
  | fileNotFound (s : String)
  | typeError (s : String)
deriving DecidableEq

deriving instance DecidableEq for Except

/-- Observable write events of the sink strategies.  `termCall` / `fileCall`
record that the corresponding sub-sink's `log` method was invoked (the write
was attempted); `termWrite` / `fileWrite` record that its `print` call
actually wrote the payload. -/
inductive SinkEvent where
  | termCall (p : Payload)
  | termWrite (p : Payload)
  | fileCall (p : Payload)
  | fileWrite (p : Payload)
deriving DecidableEq

/-- The observable history of sink invocations. -/
structure SinkSt where
  events : List SinkEvent
deriving DecidableEq

/-- `TerminalLogger.log(self, *args, **kwargs)` runs
`print(*args, **kwargs, flush=True)`: it fails exactly when the payload's
kwargs collide with the added `flush=True` or are invalid for `print`. -/
def TerminalLogger.log (p : Payload) (st : SinkSt) : SinkSt × Option PyErr :=
  let st1 : SinkSt := ⟨st.events ++ [SinkEvent.termCall p]⟩
  if printCallFails p.kwargs "flush" then
    (st1, some (PyErr.typeError "flush"))
  else
    (⟨st1.events ++ [SinkEvent.termWrite p]⟩, none)

/-- `FileLogger.log(self, *args, **kwargs)` runs
`print(*args, **kwargs, file=f)` on the freshly opened append-mode handle:
it fails exactly when the kwargs collide with the added `file=f` or are
invalid for `print`. -/
def FileLogger.log (p : Payload) (st : SinkSt) : SinkSt × Option PyErr :=
  let st1 : SinkSt := ⟨st.events ++ [SinkEvent.fileCall p]⟩
  if printCallFails p.kwargs "file" then
    (st1, some (PyErr.typeError "file"))
  else
    (⟨st1.events ++ [SinkEvent.fileWrite p]⟩, none)

/-- `DualLogger.log(self, *args, **kwargs)`:
`self.terminal.log(*args, **kwargs)` followed by `self.file.log(...)`.
There is no `try`/`except` in the source, so an exception raised by the
terminal write propagates and the file write is never reached. -/
def DualLogger.log (p : Payload) (st : SinkSt) : SinkSt × Option PyErr :=
  match TerminalLogger.log p st with
  | (st1, some e) => (st1, some e)
  | (st1, none) => FileLogger.log p st1

/-- Derived: does the terminal sub-write raise on payload `p`? -/
def termFails (p : Payload) : Bool := printCallFails p.kwargs "flush"

/-- Derived: does the file sub-write raise on payload `p`? -/
def fileFails (p : Payload) : Bool := printCallFails p.kwargs "file"

/- ========================================================================
   Part 2: the FileLogger seen as a transformer of the file's text content
   ======================================================================== -/

/-- The banner written by `FileLogger.__init__` when `reset` is true:
`f"--- Log Iniciado em {datetime.now()} ---\n"`. -/
def FileLogger.banner (now : String) : String :=
  "--- Log Iniciado em " ++ now ++ " ---\n"

/-- `FileLogger.__init__(self, filepath, reset)`: when `reset` is true the
path is opened with mode `'w'`, which truncates any prior content, and the
banner is written; otherwise the file is left untouched. -/
def FileLogger.construct (prior : String) (reset : Bool) (now : String) : String :=
  if reset then FileLogger.banner now else prior

/-- Python `print` text: `sep`-joined args followed by `end`
(defaults `' '` and `'\n'`), honouring overrides from the kwargs. -/
def renderPrint (p : Payload) : String :=
  let sep := match p.kwargs.find? (fun q => q.1 == "sep") with
    | some q => q.2
    | none => " "
  let tail := match p.kwargs.find? (fun q => q.1 == "end") with
    | some q => q.2
    | none => "\n"
  String.intercalate sep p.args ++ tail

/-- `FileLogger.log` at the content level: the path is opened in append
mode (`'a'`), so the printed text is appended to the existing content. -/
def FileLogger.logContent (content : String) (p : Payload) : String :=
  content ++ renderPrint p

/- ========================================================================
   Part 3: ParallelLogManager lifecycle (start / stop / join)
   ======================================================================== -/

/-- The lifecycle-relevant state of a `ParallelLogManager`:
whether `stop_event` is set, whether `start()` has assigned
`listener_process` (it is `None` after `__init__`), and whether
`join()` has been called on the listener process. -/
structure Manager where
  stopEventSet : Bool
  listenerStarted : Bool
  joined : Bool
deriving DecidableEq

/-- `ParallelLogManager.__init__`: event unset, `listener_process = None`. -/
def Manager.init : Manager := ⟨false, false, false⟩

/-- `ParallelLogManager.start`: spawns the listener process. -/
def Manager.start (m : Manager) : Manager := { m with listenerStarted := true }

/-- `ParallelLogManager.stop`:
`self.stop_event.set()` then `if self.listener_process: self.listener_process.join()`.
The codomain is `Except` so that "fails fast with a lifecycle error" is
expressible; the source body raises nothing, so the result is always `ok`. -/
def Manager.stop (m : Manager) : Except PyErr Manager :=
  Except.ok { m with
    stopEventSet := true,
    joined := m.joined || m.listenerStarted }

/- ========================================================================
   Part 4: HistoryPlotter.parse_log_file
   ======================================================================== -/

/-- The character class `[\d\.]` of the source regex. -/
def isDigitDot (c : Char) : Bool := c.isDigit || c == '.'

/-- The literal ` NEW BEST: ` of the source regex (after the lazy
`(?P<metaheuristic>.*?)` group). -/
def newBestLit : List Char := (" NEW BEST: ").toList

/-- The literal ` - BEST: ` of the optional group `(?: - BEST: [\d\.]+)?`. -/
def bestLit : List Char := (" - BEST: ").toList

/-- The literal ` - Time: ` preceding the time group. -/
def timeLit : List Char := (" - Time: ").toList

/-- Drop a literal prefix, or fail. -/
def dropLit : List Char → List Char → Option (List Char)
  | [], s => some s
  | _ :: _, [] => none
  | l :: ls, c :: cs => if c == l then dropLit ls cs else none

/-- Match `(?P<fitness>[-]?[\d\.]+)` at the front: an optional minus sign
followed by a maximal nonempty run of digits/dots.  The following literal in
the pattern starts with a character outside the class, so the maximal run is
exactly what the backtracking engine commits to. -/
def matchNumber (s : List Char) : Option (List Char × List Char) :=
  match s with
  | '-' :: t =>
    let run := t.takeWhile isDigitDot
    if run.isEmpty then none else some ('-' :: run, t.dropWhile isDigitDot)
  | _ =>
    let run := s.takeWhile isDigitDot
    if run.isEmpty then none else some (run, s.dropWhile isDigitDot)

/-- Match the part of the source regex after ` NEW BEST: `:
`(?P<fitness>[-]?[\d\.]+)(?: - BEST: [\d\.]+)? - Time: (?P<time>[\d\.]+)s`.
Returns the `fitness` and `time` group texts.  The optional ` - BEST: ` group
is deterministic here: its literal and the following ` - Time: ` literal
differ at a fixed position, so if the group's literal matches but the rest
fails, omitting the group cannot succeed either. -/
def matchTail (s : List Char) : Option (List Char × List Char) :=
  match matchNumber s with
  | none => none
  | some (fit, r1) =>
    let afterOpt : Option (List Char) :=
      match dropLit bestLit r1 with
      | some rb =>
        let runb := rb.takeWhile isDigitDot
        if runb.isEmpty then none else some (rb.dropWhile isDigitDot)
      | none => some r1
    match afterOpt with
    | none => none
    | some r2 =>
      match dropLit timeLit r2 with
      | none => none
      | some r3 =>
        let runt := r3.takeWhile isDigitDot
        match r3.dropWhile isDigitDot with
        | 's' :: _ => if runt.isEmpty then none else some (fit, runt)
        | _ => none

/-- `re.search` of the source pattern over one line: try each position for
the ` NEW BEST: ` literal from the left (the lazy `.*?` prefers the earliest
position whose tail matches); the `metaheuristic` group is the consumed
prefix back to the previous newline (`.` does not match `'\n'`).
`pre` is the reversed prefix consumed so far. -/
def searchFrom (pre : List Char) (s : List Char) :
    Option (List Char × List Char × List Char) :=
  match (dropLit newBestLit s).bind matchTail, s with
  | some ft, _ => some ((pre.takeWhile (fun c => !(c == '\n'))).reverse, ft.1, ft.2)
  | none, [] => none
  | none, c :: cs => searchFrom (c :: pre) cs

/-- Python `str.strip()` whitespace (the ASCII part). -/
def pyIsSpace (c : Char) : Bool :=
  c == ' ' || c == '\t' || c == '\n' || c == '\r' ||
    c == Char.ofNat 11 || c == Char.ofNat 12

/-- Python `str.strip()`. -/
def pyStripS (s : String) : String :=
  ⟨(((s.toList.dropWhile pyIsSpace).reverse.dropWhile pyIsSpace).reverse)⟩

/-- Substring test, Python's `needle in line`. -/
def containsSub (needle : List Char) : List Char → Bool
  | [] => needle.isEmpty
  | c :: t => needle.isPrefixOf (c :: t) || containsSub needle t

/-- Python `"NEW BEST" in line`. -/
def lineHasNewBest (line : String) : Bool :=
  containsSub (("NEW BEST").toList) line.toList

/-- The `pattern.search(line)` call: the raw `metaheuristic`, `fitness` and
`time` group texts, or `none` when the regex does not match. -/
def searchLine (line : String) : Option (String × String × String) :=
  (searchFrom [] line.toList).map (fun r => (⟨r.1⟩, ⟨r.2.1⟩, ⟨r.2.2⟩))

/-- Digits to a natural number (most significant first). -/
def digitsToNat (ds : List Char) : ℕ :=
  ds.foldl (fun n c => n * 10 + (c.toNat - ('0').toNat)) 0

/-- Python `float()` restricted to the strings the source regex can capture
(`[-]?[\d\.]+`): it succeeds exactly on well-formed decimal literals — at
most one dot and at least one digit — and raises `ValueError` otherwise
(e.g. on `"1..5"` or `"-."`).  The value is the exact rational; the source
uses IEEE doubles, an idealisation that preserves order of distinct decimals
up to rounding. -/
def pyFloat (s : String) : Option ℚ :=
  let cs := s.toList
  let neg : Bool := match cs with
    | '-' :: _ => true
    | _ => false
  let ds := if neg then cs.drop 1 else cs
  if ds.isEmpty || !ds.all isDigitDot ||
      decide (1 < ds.count '.') || !ds.any Char.isDigit then
    none
  else
    let ip := ds.takeWhile (fun c => !(c == '.'))
    let fp := (ds.dropWhile (fun c => !(c == '.'))).drop 1
    let mag : ℤ := (digitsToNat ip * 10 ^ fp.length + digitsToNat fp : ℕ)
    some (mkRat (if neg then -mag else mag) (10 ^ fp.length))

/-- One extracted history entry: the tuple
`(metaheuristic_name, fitness, time, run_number)`. -/
structure Entry where
  name : String
  fitness : ℚ
  time : ℚ
  run : ℕ
deriving DecidableEq

/-- The loop state of `parse_log_file`: `run_count`, `last_time`, `data`. -/
structure PState where
  runCount : ℕ
  lastTime : ℚ
  data : List Entry
deriving DecidableEq

/-- Initial loop state: `run_count = 1`, `last_time = 0.0`, `data = []`. -/
def initPState : PState := ⟨1, 0, []⟩

/-- Append one successfully matched entry, applying the run-boundary rule
`if data and time_val < last_time: run_count += 1` and the updates
`data.append(...)`, `last_time = time_val`. -/
def applyEntry (st : PState) (e : String × ℚ × ℚ) : PState :=
  let rc := if st.data ≠ [] ∧ e.2.2 < st.lastTime then st.runCount + 1 else st.runCount
  ⟨rc, e.2.2, st.data ++ [⟨e.1, e.2.1, e.2.2, rc⟩]⟩

/-- The body of the `for line in lines` loop of `parse_log_file`:
substring test, regex search, the two `float()` conversions (each may raise
`ValueError`, which the source does not catch), then `applyEntry`. -/
def stepLine (st : PState) (line : String) : Except PyErr PState :=
  if lineHasNewBest line then
    match searchLine line with
    | some (metaRaw, fitS, timeS) =>
      match pyFloat fitS with
      | none => Except.error (PyErr.valueError fitS)
      | some fv =>
        match pyFloat timeS with
        | none => Except.error (PyErr.valueError timeS)
        | some tv => Except.ok (applyEntry st (pyStripS metaRaw, fv, tv))
    | none => Except.ok st
  else Except.ok st

/-- `HistoryPlotter.parse_log_file(file_path)`.  `contents` is the result of
reading the path: `none` models `FileNotFoundError` from `open`, which the
source catches, printing `f"File not found: {file_path}"` and returning `[]`.
The result pairs the returned entry list with the lines printed to stdout. -/
def parseLogFile (path : String) (contents : Option (List String)) :
    Except PyErr (List Entry × List String) :=
  match contents with
  | none => Except.ok ([], ["File not found: " ++ path])
  | some lines =>
    (List.foldlM stepLine initPState lines).map (fun st => (st.data, []))

/-- The per-line extraction implicit in the loop: the entry data a line
contributes when it survives the substring test, the regex and both
`float()` conversions. -/
def extract (line : String) : Option (String × ℚ × ℚ) :=
  if lineHasNewBest line then
    match searchLine line with
    | some r =>
      match pyFloat r.2.1, pyFloat r.2.2 with
      | some f, some t => some (pyStripS r.1, f, t)
      | _, _ => none
    | none => none
  else none

/-- The name/fitness/time part of an entry, without the run number. -/
def projT (e : Entry) : String × ℚ × ℚ := (e.name, e.fitness, e.time)

/-- The run-number chain rule: each next entry's run number is the previous
one's, incremented exactly when its time is strictly smaller. -/
def chainB (prev : Entry) : List Entry → Bool
  | [] => true
  | e :: es =>
    (e.run == prev.run + (if e.time < prev.time then 1 else 0)) && chainB e es

/-- Run numbers of a returned history: the first entry has run number 1 and
the chain rule holds between consecutive entries. -/
def runsOkB : List Entry → Bool
  | [] => true
  | e :: es => (e.run == 1) && chainB e es

/- ========================================================================
   Part 5: the aggregation machine — multiprocessing queue, stop event and
   the listener worker loop, as a small-step system over interleavings
   ======================================================================== -/

/-- Program counter of `ParallelLogManager._listener_worker`:
`outer` is the check `while not stop_event.is_set() or not queue.empty()`,
`inner` the check `while not queue.empty()` (whose empty case is the
`time.sleep(0.05)` ending the outer iteration), `exited` loop exit. -/
inductive PC where
  | outer
  | inner
  | exited
deriving DecidableEq

/-- Global state of one aggregation run: the shared FIFO queue, the stop
event, the listener's program counter, and observables — `attempts` the
messages passed to `strategy.log` (in order), `stderrLog` the
`"ERRO CRÍTICO NO LOGGER: ..."` diagnostics, `sleeps` the number of
executed `time.sleep(0.05)` calls, `enqLog` the linearised order of all
enqueues, and `stopIdx` the length of `enqLog` when the stop event was
first set (marking which enqueues preceded `stop()`). -/
structure LState (Msg : Type) where
  queue : List Msg
  stopSet : Bool
  pc : PC
  attempts : List Msg
  stderrLog : List String
  sleeps : ℕ
  enqLog : List Msg
  stopIdx : Option ℕ
deriving DecidableEq

/-- Interleaving events: a producer's `WorkerLogger.log` enqueue
(`self.queue.put((args, kwargs))`), the `stop()` call setting the event,
and one micro-step of the listener loop. -/
inductive LLabel (Msg : Type) where
  | enq (m : Msg)
  | stop
  | tick
deriving DecidableEq

/-- The diagnostic line of the listener's `except` clause. -/
def errMsg (e : String) : String := "ERRO CRÍTICO NO LOGGER: " ++ e

/-- One transition.  `write m` is `strategy.log` on message `m`: `none` for
success, `some e` for a raised exception with text `e` — the `try`/`except`
around the dispatch appends the diagnostic and continues.  The `tick` at
`inner` with an empty queue is the `time.sleep(0.05)` closing the outer
iteration; the `tick` at `outer` exits exactly when the stop event is set
and the queue is observed empty. -/
def step {Msg : Type} (write : Msg → Option String) (s : LState Msg) :
    LLabel Msg → LState Msg
  | LLabel.enq m =>
    { s with queue := s.queue ++ [m], enqLog := s.enqLog ++ [m] }
  | LLabel.stop =>
    { s with stopSet := true, stopIdx := some (s.stopIdx.getD s.enqLog.length) }
  | LLabel.tick =>
    match s.pc with
    | PC.exited => s
    | PC.outer =>
      if s.stopSet && s.queue.isEmpty then { s with pc := PC.exited }
      else { s with pc := PC.inner }
    | PC.inner =>
      match s.queue with
      | [] => { s with sleeps := s.sleeps + 1, pc := PC.outer }
      | m :: rest =>
        let s1 := { s with queue := rest, attempts := s.attempts ++ [m] }
        match write m with
        | some e => { s1 with stderrLog := s1.stderrLog ++ [errMsg e] }
        | none => s1

/-- Initial state: queue empty, event unset, listener at the outer check. -/
def initL (Msg : Type) : LState Msg :=
  ⟨[], false, PC.outer, [], [], 0, [], none⟩

/-- Run the system over an arbitrary interleaving of events. -/
def exec {Msg : Type} (write : Msg → Option String)
    (tr : List (LLabel Msg)) : LState Msg :=
  tr.foldl (step write) (initL Msg)

/-- The machine's inductive invariant: the enqueue log splits into the
dispatched prefix and the still-queued suffix; the stop index exists exactly
when the event is set and points into the log; and on exit the whole
pre-stop prefix has been dispatched. -/
def LInv {Msg : Type} (s : LState Msg) : Prop :=
  s.enqLog = s.attempts ++ s.queue ∧
  (s.stopSet = true ↔ s.stopIdx.isSome) ∧
  (∀ k, s.stopIdx = some k → k ≤ s.enqLog.length) ∧
  (s.pc = PC.exited → s.stopSet = true ∧
    ∃ k, s.stopIdx = some k ∧ k ≤ s.attempts.length)

/-- Well-formedness of the parse loop state: the accumulated data satisfies
the run-number chain, and `run_count` / `last_time` mirror the last entry. -/
def PWf (st : PState) : Prop :=
  runsOkB st.data = true ∧
  (st.data = [] → st.runCount = 1) ∧
  (∀ d ds, st.data = d :: ds →
    (ds.getLastD d).run = st.runCount ∧ (ds.getLastD d).time = st.lastTime)

/-- A sink write function that never raises. -/
def noFailNat : ℕ → Option String := fun _ => none

/-- A sink write function over producer-tagged messages that never raises. -/
def noFailPair : ℕ × ℕ → Option String := fun _ => none

/-- A sink write function that raises exactly on message `0`. -/
def failOnZero : ℕ → Option String :=
  fun m => if m = 0 then some "boom" else none

/-- A listener state at the inner check with two queued messages. -/
def sC3 : LState ℕ := ⟨[0, 1], false, PC.inner, [], [], 0, [0, 1], none⟩

/-- Interleaving: one enqueue, then `stop()`, then the listener runs to
completion (enter loop, dispatch, sleep, exit check). -/
def trC2 : List (LLabel ℕ) :=
  [LLabel.enq 5, LLabel.stop, LLabel.tick, LLabel.tick, LLabel.tick, LLabel.tick]

/-- Interleaving stopping right after the drain: enqueue, `stop()`, the
outer check, and the dispatching inner step. -/
def trC7a : List (LLabel ℕ) :=
  [LLabel.enq 0, LLabel.stop, LLabel.tick, LLabel.tick]

/-- `trC7a` continued until the listener exits. -/
def trC7b : List (LLabel ℕ) :=
  [LLabel.enq 0, LLabel.stop, LLabel.tick, LLabel.tick, LLabel.tick, LLabel.tick]

/-- Producer 1 enqueues before producer 2; listener drains both. -/
def trC9a : List (LLabel (ℕ × ℕ)) :=
  [LLabel.enq (1, 10), LLabel.enq (2, 20), LLabel.tick, LLabel.tick, LLabel.tick]

/-- Producer 2 enqueues before producer 1; listener drains both. -/
def trC9b : List (LLabel (ℕ × ℕ)) :=
  [LLabel.enq (2, 20), LLabel.enq (1, 10), LLabel.tick, LLabel.tick, LLabel.tick]

/-- Is the event an invocation of (or a write by) the File sub-sink? -/
def isFileEvent : SinkEvent → Bool
  | SinkEvent.fileCall _ => true
  | SinkEvent.fileWrite _ => true
  | _ => false

/-- A payload whose kwargs carry the key `flush`. -/
def pFlush : Payload := ⟨["msg"], [("flush", "True")]⟩

/-- A plain payload with no keyword arguments. -/
def pPlain : Payload := ⟨["hello"], []⟩

/-- A log file whose "NEW BEST" lines parse cleanly, with a time decrease
between the two entries (a run boundary). -/
def linesC8 : List String :=
  ["SA 0 NEW BEST: 12.5 - BEST: 10.0 - Time: 3.0s - 50", "x",
   "LNS NEW BEST: 7.25 - Time: 1.5s"]

/-- The history `parse_log_file` extracts from `linesC8`. -/
def dataC8 : List Entry :=
  [⟨"SA 0", mkRat 25 2, 3, 1⟩, ⟨"LNS", mkRat 29 4, mkRat 3 2, 2⟩]

/-- A line that matches the pattern with well-formed floats. -/
def lineGood : String := "B NEW BEST: 2.0 - Time: 1.0s"

/-- A line the regex matches but whose fitness field `1..5` is not a valid
float literal, so `float()` raises `ValueError`. -/
def lineBad : String := "A NEW BEST: 1..5 - Time: 2.0s"

theorem step_LInv {Msg : Type} (write : Msg → Option String)
    (s : LState Msg) (l : LLabel Msg) (h : LInv s) : LInv (step write s l) := by
  obtain ⟨q, ss, pc, att, sl, sle, el, si⟩ := s
  obtain ⟨h1, h2, h3, h4⟩ := h
  dsimp only at h1 h2 h3 h4
  cases l with
  | enq m =>
    refine ⟨?_, ?_, ?_, ?_⟩ <;> dsimp only [step]
    · rw [h1, List.append_assoc]
    · exact h2
    · intro k hk
      simp only [List.length_append, List.length_cons, List.length_nil]
      exact le_trans (h3 k hk) (Nat.le_add_right _ _)
    · intro hpc
      exact h4 hpc
  | stop =>
    refine ⟨?_, ?_, ?_, ?_⟩ <;> dsimp only [step]
    · exact h1
    · simp
    · intro k hk
      injection hk with hk
      rcases si with _ | j
      · simp only [Option.getD_none] at hk
        omega
      · simp only [Option.getD_some] at hk
        rw [← hk]
        exact h3 j rfl
    · intro hpc
      obtain ⟨hss, j, hj, hja⟩ := h4 hpc
      refine ⟨rfl, j, ?_, hja⟩
      rw [hj]
      rfl
  | tick =>
    cases pc with
    | exited => exact ⟨h1, h2, h3, h4⟩
    | outer =>
      by_cases hc : (ss && q.isEmpty) = true
      · simp only [step, hc, if_true]
        refine ⟨h1, h2, h3, ?_⟩
        intro _
        simp only [Bool.and_eq_true, List.isEmpty_iff] at hc
        obtain ⟨hss, hqe⟩ := hc
        have hidx : si.isSome := h2.mp hss
        rcases si with _ | k
        · simp at hidx
        · refine ⟨hss, k, rfl, ?_⟩
          have hk := h3 k rfl
          rw [h1, hqe] at hk
          simpa using hk
      · simp only [step, hc, if_false]
        exact ⟨h1, h2, h3, fun hx => nomatch hx⟩
    | inner =>
      cases q with
      | nil =>
        exact ⟨h1, h2, h3, fun hx => nomatch hx⟩
      | cons m rest =>
        have h1' : el = (att ++ [m]) ++ rest := by
          rw [h1]
          simp
        cases hw : write m with
        | some e =>
          simp only [step, hw]
          exact ⟨h1', h2, h3, fun hx => nomatch hx⟩
        | none =>
          simp only [step, hw]
          exact ⟨h1', h2, h3, fun hx => nomatch hx⟩

theorem foldl_LInv {Msg : Type} (write : Msg → Option String)
    (tr : List (LLabel Msg)) :
    ∀ s : LState Msg, LInv s → LInv (tr.foldl (step write) s) := by
  induction tr with
  | nil => intro s h; exact h
  | cons l ls ih =>
    intro s h
    exact ih (step write s l) (step_LInv write s l h)

theorem initL_LInv (Msg : Type) : LInv (initL Msg) := by
  refine ⟨rfl, by simp [initL], ?_, ?_⟩
  · intro k hk
    simp [initL] at hk
  · intro h
    simp [initL] at h

theorem exec_LInv {Msg : Type} (write : Msg → Option String)
    (tr : List (LLabel Msg)) : LInv (exec write tr) :=
  foldl_LInv write tr (initL Msg) (initL_LInv Msg)

/- ========================================================================
   Part 6: supporting lemmas about the parse loop
   ======================================================================== -/

theorem stepLine_ok_cases (st : PState) (line : String) (st1 : PState)
    (h : stepLine st line = Except.ok st1) :
    (extract line = none ∧ st1 = st) ∨
    ∃ e, extract line = some e ∧ st1 = applyEntry st e := by
  cases hnb : lineHasNewBest line with
  | false =>
    simp only [stepLine, hnb, Bool.false_eq_true, if_false, Except.ok.injEq] at h
    exact Or.inl ⟨by simp [extract, hnb], h.symm⟩
  | true =>
    cases hs : searchLine line with
    | none =>
      simp only [stepLine, hnb, if_true, hs, Except.ok.injEq] at h
      exact Or.inl ⟨by simp [extract, hnb, hs], h.symm⟩
    | some r =>
      obtain ⟨m, fs, ts⟩ := r
      cases hf : pyFloat fs with
      | none =>
        simp only [stepLine, hnb, if_true, hs, hf] at h
        exact Except.noConfusion h
      | some fv =>
        cases ht : pyFloat ts with
        | none =>
          simp only [stepLine, hnb, if_true, hs, hf, ht] at h
          exact Except.noConfusion h
        | some tv =>
          simp only [stepLine, hnb, if_true, hs, hf, ht, Except.ok.injEq] at h
          refine Or.inr ⟨(pyStripS m, fv, tv), ?_, h.symm⟩
          simp [extract, hnb, hs, hf, ht]

theorem foldlM_stepLine_ok (lines : List String) :
    ∀ st st' : PState, List.foldlM stepLine st lines = Except.ok st' →
      st' = List.foldl applyEntry st (lines.filterMap extract) := by
  induction lines with
  | nil =>
    intro st st' h
    simp only [List.foldlM_nil, pure, Except.pure, Except.ok.injEq] at h
    simp [h]
  | cons l ls ih =>
    intro st st' h
    rw [List.foldlM_cons] at h
    cases hstep : stepLine st l with
    | error e =>
      rw [hstep] at h
      simp [Bind.bind, Except.bind] at h
    | ok s1 =>
      rw [hstep] at h
      simp only [Bind.bind, Except.bind] at h
      rcases stepLine_ok_cases st l s1 hstep with ⟨hn, rfl⟩ | ⟨e, he, rfl⟩
      · rw [List.filterMap_cons_none hn]
        exact ih _ st' h
      · rw [List.filterMap_cons_some he]
        simp only [List.foldl_cons]
        exact ih _ st' h

theorem foldl_applyEntry_data (es : List (String × ℚ × ℚ)) :
    ∀ st : PState, (List.foldl applyEntry st es).data.map projT
      = st.data.map projT ++ es := by
  induction es with
  | nil =>
    intro st
    simp
  | cons e es ih =>
    intro st
    simp only [List.foldl_cons]
    rw [ih]
    simp [applyEntry, projT]

theorem chainB_append (x : Entry) (es : List Entry) :
    ∀ prev : Entry,
      chainB prev (es ++ [x]) =
        (chainB prev es &&
          (x.run == (es.getLastD prev).run +
            (if x.time < (es.getLastD prev).time then 1 else 0))) := by
  induction es with
  | nil =>
    intro prev
    simp [chainB, List.getLastD]
  | cons e es ih =>
    intro prev
    simp only [List.cons_append, chainB, List.getLastD_cons, List.append_eq]
    rw [ih e, Bool.and_assoc]

theorem applyEntry_PWf (st : PState) (e : String × ℚ × ℚ) (h : PWf st) :
    PWf (applyEntry st e) := by
  obtain ⟨hr, he, hl⟩ := h
  cases hd : st.data with
  | nil =>
    have hrc : st.runCount = 1 := he hd
    refine ⟨?_, ?_, ?_⟩
    · simp [applyEntry, hd, runsOkB, chainB, hrc]
    · simp [applyEntry, hd]
    · intro d ds hds
      simp only [applyEntry, hd, List.nil_append] at hds
      injection hds with h1 h2
      subst h1
      subst h2
      simp [applyEntry, hd, List.getLastD, hrc]
  | cons d0 ds0 =>
    obtain ⟨hlr, hlt⟩ := hl d0 ds0 hd
    have hne : st.data ≠ [] := by rw [hd]; simp
    refine ⟨?_, ?_, ?_⟩
    · simp only [applyEntry, hd]
      simp only [List.cons_append, runsOkB]
      simp only [runsOkB, hd] at hr
      simp only [Bool.and_eq_true] at hr ⊢
      obtain ⟨hr1, hr2⟩ := hr
      refine ⟨hr1, ?_⟩
      rw [chainB_append]
      simp only [Bool.and_eq_true]
      refine ⟨hr2, ?_⟩
      simp only [beq_iff_eq]
      rw [hlr, hlt]
      by_cases hlt2 : e.2.2 < st.lastTime
      · simp [hne, hlt2, hd]
      · simp [hne, hlt2, hd]
    · intro hcontra
      simp [applyEntry, hd] at hcontra
    · intro d ds hds
      simp only [applyEntry, hd, List.cons_append] at hds
      injection hds with h1 h2
      subst h1
      subst h2
      rw [List.getLastD_concat]
      constructor <;> simp [applyEntry, hd]

theorem foldl_applyEntry_PWf (es : List (String × ℚ × ℚ)) :
    ∀ st : PState, PWf st → PWf (List.foldl applyEntry st es) := by
  induction es with
  | nil => intro st h; exact h
  | cons e es ih =>
    intro st h
    exact ih (applyEntry st e) (applyEntry_PWf st e h)

theorem initPState_PWf : PWf initPState := by
  refine ⟨rfl, fun _ => rfl, ?_⟩
  intro d ds hds
  simp [initPState] at hds

/- ========================================================================
   Part 7: the claims
   ======================================================================== -/

/-- C1, counterexample: a payload whose kwargs carry `flush` makes the
Terminal sub-write raise, and then `DualLogger.log` raises without ever
invoking the File sub-sink — no `fileCall`/`fileWrite` event occurs, so the
File write is not even attempted, contradicting the claimed failure
isolation between the two sub-writes. -/
theorem dual_terminal_failure_skips_file_cex :
    DualLogger.log pFlush ⟨[]⟩ =
      (⟨[SinkEvent.termCall pFlush]⟩, some (PyErr.typeError "flush")) ∧
    ((DualLogger.log pFlush ⟨[]⟩).1.events.any isFileEvent) = false := by
  constructor <;> decide

/-- C1, amended: `DualLogger.log` invokes the Terminal sub-sink and then the
File sub-sink, in that order; when the Terminal write raises, the exception
propagates and the File write is NOT attempted; when only the File write
raises, the Terminal write has already been performed. -/
theorem dual_write_order_and_failure_propagation (p : Payload) (st : SinkSt) :
    (termFails p = false → fileFails p = false →
      DualLogger.log p st =
        (⟨st.events ++ [SinkEvent.termCall p, SinkEvent.termWrite p,
          SinkEvent.fileCall p, SinkEvent.fileWrite p]⟩, none)) ∧
    (termFails p = true →
      DualLogger.log p st =
        (⟨st.events ++ [SinkEvent.termCall p]⟩, some (PyErr.typeError "flush"))) ∧
    (termFails p = false → fileFails p = true →
      DualLogger.log p st =
        (⟨st.events ++ [SinkEvent.termCall p, SinkEvent.termWrite p,
          SinkEvent.fileCall p]⟩, some (PyErr.typeError "file"))) := by
  unfold termFails fileFails
  refine ⟨?_, ?_, ?_⟩
  · intro ht hf
    simp [DualLogger.log, TerminalLogger.log, FileLogger.log, ht, hf]
  · intro ht
    simp [DualLogger.log, TerminalLogger.log, ht]
  · intro ht hf
    simp [DualLogger.log, TerminalLogger.log, FileLogger.log, ht, hf]

/-- C1, witness: on a plain payload both hypotheses hold and the Dual write
produces the four events in Terminal-then-File order. -/
theorem dual_write_order_witness :
    termFails pPlain = false ∧ fileFails pPlain = false ∧
    DualLogger.log pPlain ⟨[]⟩ =
      (⟨[SinkEvent.termCall pPlain, SinkEvent.termWrite pPlain,
        SinkEvent.fileCall pPlain, SinkEvent.fileWrite pPlain]⟩, none) :=
  ⟨by decide, by decide,
    (dual_write_order_and_failure_propagation pPlain ⟨[]⟩).1 (by decide) (by decide)⟩

theorem foldl_logContent_isPrefix (ps : List Payload) :
    ∀ c : String, c.data <+: (List.foldl FileLogger.logContent c ps).data := by
  induction ps with
  | nil =>
    intro c
    exact List.prefix_rfl
  | cons p ps ih =>
    intro c
    refine List.IsPrefix.trans ?_ (ih (FileLogger.logContent c p))
    exact ⟨(renderPrint p).data, (String.data_append c (renderPrint p)).symm⟩

/-- C4, counterexample: with `reset=true` the file starts with the source's
Portuguese banner `--- Log Iniciado em <timestamp> ---`, not the claimed
`--- Log Started at <timestamp> ---`. -/
theorem file_reset_banner_text_cex :
    FileLogger.construct "old content" true "2025-01-01 00:00:00" =
      "--- Log Iniciado em 2025-01-01 00:00:00 ---\n" ∧
    FileLogger.construct "old content" true "2025-01-01 00:00:00" ≠
      "--- Log Started at 2025-01-01 00:00:00 ---\n" := by
  constructor
  · rfl
  · decide

/-- C4, amended: constructing the File sink with `reset=true` truncates any
prior content and writes exactly the banner line
`--- Log Iniciado em <timestamp> ---` once; with `reset=false` prior content
is preserved; every write appends at the end of the file, so the banner
stays in front of all subsequently appended messages. -/
theorem file_reset_truncates_and_appends :
    (∀ prior now, FileLogger.construct prior true now = FileLogger.banner now) ∧
    (∀ prior now, FileLogger.construct prior false now = prior) ∧
    (∀ (c : String) (p : Payload), c.data <+: (FileLogger.logContent c p).data) ∧
    (∀ (prior now : String) (ps : List Payload),
      (FileLogger.banner now).data <+:
        (List.foldl FileLogger.logContent
          (FileLogger.construct prior true now) ps).data) := by
  refine ⟨fun prior now => rfl, fun prior now => rfl, ?_, ?_⟩
  · intro c p
    exact ⟨(renderPrint p).data, (String.data_append c (renderPrint p)).symm⟩
  · intro prior now ps
    exact foldl_logContent_isPrefix ps (FileLogger.construct prior true now)

/-- C5, counterexample: `parse_log_file` on a nonexistent path does not
propagate any error to its caller — the result is never `Except.error`. -/
theorem parse_missing_file_no_error_cex :
    ¬ ∃ e, parseLogFile "missing.log" none = Except.error e := by
  rintro ⟨e, h⟩
  simp [parseLogFile] at h

/-- C5, amended: `parse_log_file` on a nonexistent path catches the
`FileNotFoundError` internally, prints `File not found: <path>` and returns
the empty list instead of surfacing the error to its caller. -/
theorem parse_missing_file_returns_empty (path : String) :
    parseLogFile path none =
      Except.ok ([], ["File not found: " ++ path]) := rfl

/-- C6, counterexample: calling `stop()` on a manager that was never
started raises no lifecycle error — the result is never `Except.error`. -/
theorem stop_before_start_no_error_cex :
    ¬ ∃ e, Manager.stop Manager.init = Except.error e := by
  rintro ⟨e, h⟩
  simp [Manager.stop] at h

/-- C6, amended: `stop()` before `start()` silently succeeds: it sets the
shutdown event and, since `listener_process` is `None`, skips the join
instead of failing fast with a lifecycle/state error. -/
theorem stop_before_start_silent :
    Manager.stop Manager.init = Except.ok ⟨true, false, false⟩ := rfl

/-- C10: a payload whose kwargs contain the key `flush` always makes
`TerminalLogger.log` raise `TypeError` (the call duplicates the
unconditionally added `flush=True`), and `DualLogger.log` raises the same
way; the payload is rejected before anything is written (only the `termCall`
invocation event is recorded, no `termWrite`). -/
theorem terminal_flush_kwarg_type_error (p : Payload) (st : SinkSt)
    (h : hasKey "flush" p.kwargs = true) :
    TerminalLogger.log p st =
      (⟨st.events ++ [SinkEvent.termCall p]⟩, some (PyErr.typeError "flush")) ∧
    DualLogger.log p st =
      (⟨st.events ++ [SinkEvent.termCall p]⟩, some (PyErr.typeError "flush")) := by
  have hf : printCallFails p.kwargs "flush" = true := by
    simp [printCallFails, h]
  have ht : TerminalLogger.log p st =
      (⟨st.events ++ [SinkEvent.termCall p]⟩, some (PyErr.typeError "flush")) := by
    simp [TerminalLogger.log, hf]
  refine ⟨ht, ?_⟩
  simp [DualLogger.log, ht]

/-- C10, witness: a concrete payload carrying `flush=False`. -/
theorem terminal_flush_kwarg_witness :
    hasKey "flush" (Payload.mk ["x"] [("flush", "False")]).kwargs = true ∧
    TerminalLogger.log ⟨["x"], [("flush", "False")]⟩ ⟨[]⟩ =
      (⟨[SinkEvent.termCall ⟨["x"], [("flush", "False")]⟩]⟩,
        some (PyErr.typeError "flush")) :=
  ⟨by decide, (terminal_flush_kwarg_type_error ⟨["x"], [("flush", "False")]⟩ ⟨[]⟩
    (by decide)).1⟩

/-- C2: for every interleaving of producer enqueues, the `stop()` event and
listener steps, (i) if the listener has exited then the shutdown signal was
set and every message enqueued strictly before `stop()` (the `enqLog` prefix
of length `stopIdx`) has been passed to the sink (`attempts`) exactly once
(messages identified by distinct payloads, hence the `Nodup` hypothesis);
and (ii) a listener step exits only from a state where the signal is set and
the queue was observed empty. -/
theorem listener_drain_before_exit {Msg : Type} [DecidableEq Msg]
    (write : Msg → Option String) (tr : List (LLabel Msg))
    (hex : (exec write tr).pc = PC.exited)
    (hnd : (exec write tr).enqLog.Nodup) :
    ((exec write tr).stopSet = true ∧
      ∃ k, (exec write tr).stopIdx = some k ∧
        ∀ m ∈ (exec write tr).enqLog.take k,
          (exec write tr).attempts.count m = 1) ∧
    (∀ s : LState Msg, (step write s LLabel.tick).pc = PC.exited →
      s.pc = PC.exited ∨ (s.stopSet = true ∧ s.queue = [])) := by
  obtain ⟨h1, h2, h3, h4⟩ := exec_LInv write tr
  obtain ⟨hss, k, hk, hka⟩ := h4 hex
  constructor
  · refine ⟨hss, k, hk, ?_⟩
    intro m hm
    have htake : (exec write tr).enqLog.take k =
        (exec write tr).attempts.take k := by
      rw [h1, List.take_append_of_le_length hka]
    rw [htake] at hm
    have hmem : m ∈ (exec write tr).attempts := List.take_subset k _ hm
    have hnd' : (exec write tr).attempts.Nodup := by
      rw [h1] at hnd
      exact hnd.of_append_left
    exact List.count_eq_one_of_mem hnd' hmem
  · intro s hstep
    obtain ⟨q, ss, pc, att, sl, sle, el, si⟩ := s
    cases pc with
    | exited => exact Or.inl rfl
    | outer =>
      by_cases hc : (ss && q.isEmpty) = true
      · simp only [Bool.and_eq_true, List.isEmpty_iff] at hc
        exact Or.inr ⟨hc.1, hc.2⟩
      · simp only [step, hc, if_false] at hstep
        exact nomatch hstep
    | inner =>
      cases q with
      | nil =>
        simp only [step] at hstep
        exact nomatch hstep
      | cons m rest =>
        cases hw : write m with
        | some e =>
          simp only [step, hw] at hstep
          exact nomatch hstep
        | none =>
          simp only [step, hw] at hstep
          exact nomatch hstep

/-- C2, witness: the interleaving `trC2` exits the listener and the single
pre-stop message 5 is delivered exactly once. -/
theorem listener_drain_before_exit_witness :
    (exec noFailNat trC2).pc = PC.exited ∧
    (exec noFailNat trC2).enqLog.Nodup ∧
    ((exec noFailNat trC2).stopSet = true ∧
      ∃ k, (exec noFailNat trC2).stopIdx = some k ∧
        ∀ m ∈ (exec noFailNat trC2).enqLog.take k,
          (exec noFailNat trC2).attempts.count m = 1) :=
  ⟨by decide, by decide,
    (listener_drain_before_exit noFailNat trC2 (by decide) (by decide)).1⟩

/-- C3: a listener step at the inner check with queued messages `m1, m2, …`
dispatches `m1` to the sink, stays at the inner check (the loop neither
terminates nor skips ahead) even when `Sink.write` raises, appends the
diagnostic `ERRO CRÍTICO NO LOGGER: <e>` to stderr exactly when it raises,
and the very next step dispatches `m2` — a failure on message `i` never
prevents delivery of message `i+1`. -/
theorem listener_failure_isolation {Msg : Type} (write : Msg → Option String)
    (s : LState Msg) (m1 m2 : Msg) (rest : List Msg)
    (hpc : s.pc = PC.inner) (hq : s.queue = m1 :: m2 :: rest) :
    (step write s LLabel.tick).pc = PC.inner ∧
    (step write s LLabel.tick).queue = m2 :: rest ∧
    (step write s LLabel.tick).attempts = s.attempts ++ [m1] ∧
    (step write s LLabel.tick).stderrLog =
      s.stderrLog ++ (match write m1 with
        | some e => [errMsg e]
        | none => []) ∧
    (step write (step write s LLabel.tick) LLabel.tick).attempts =
      s.attempts ++ [m1, m2] ∧
    (step write (step write s LLabel.tick) LLabel.tick).pc = PC.inner := by
  obtain ⟨q, ss, pc, att, sl, sle, el, si⟩ := s
  dsimp only at hpc hq
  subst hpc
  subst hq
  cases hw1 : write m1 with
  | some e1 =>
    cases hw2 : write m2 with
    | some e2 => simp [step, hw1, hw2]
    | none => simp [step, hw1, hw2]
  | none =>
    cases hw2 : write m2 with
    | some e2 => simp [step, hw1, hw2]
    | none => simp [step, hw1, hw2]

/-- C3, witness: with a sink that raises exactly on message 0, the listener
reports the failure on 0 to stderr, keeps running, and delivers message 1
next. -/
theorem listener_failure_isolation_witness :
    (step failOnZero sC3 LLabel.tick).pc = PC.inner ∧
    (step failOnZero sC3 LLabel.tick).queue = [1] ∧
    (step failOnZero sC3 LLabel.tick).attempts = [0] ∧
    (step failOnZero sC3 LLabel.tick).stderrLog = [errMsg "boom"] ∧
    (step failOnZero (step failOnZero sC3 LLabel.tick) LLabel.tick).attempts
      = [0, 1] ∧
    (step failOnZero (step failOnZero sC3 LLabel.tick) LLabel.tick).pc
      = PC.inner :=
  listener_failure_isolation failOnZero sC3 0 1 [] rfl rfl

/-- C7, counterexample: run `trC7a` — enqueue, `stop()`, outer check,
dispatch.  The resulting state has the shutdown signal set and the channel
drained, yet the next listener step is the `time.sleep(0.05)` (the sleep
counter increments), and the full run `trC7b` exits only after having slept
once — the sleep is NOT taken only when the signal is unset, and the loop
does sleep again after the final drain. -/
theorem listener_sleep_with_stop_set_cex :
    (exec noFailNat trC7a).stopSet = true ∧
    (exec noFailNat trC7a).queue = [] ∧
    (exec noFailNat trC7a).pc = PC.inner ∧
    (step noFailNat (exec noFailNat trC7a) LLabel.tick).sleeps =
      (exec noFailNat trC7a).sleeps + 1 ∧
    (exec noFailNat trC7b).pc = PC.exited ∧
    (exec noFailNat trC7b).sleeps = 1 := by
  refine ⟨?_, ?_, ?_, ?_, ?_, ?_⟩ <;> decide

/-- C7, amended: the fixed sleep interval is taken exactly when the inner
check observes the Channel empty — regardless of the ShutdownSignal, so the
loop sleeps once more after its final drain; the outer check itself never
sleeps (in particular the exit transition does not sleep), and a step after
exit changes nothing. -/
theorem listener_sleep_characterization {Msg : Type}
    (write : Msg → Option String) (s : LState Msg) :
    ((step write s LLabel.tick).sleeps = s.sleeps + 1 ↔
      (s.pc = PC.inner ∧ s.queue = [])) ∧
    (s.pc = PC.outer → (step write s LLabel.tick).sleeps = s.sleeps) ∧
    (s.pc = PC.exited → step write s LLabel.tick = s) := by
  obtain ⟨q, ss, pc, att, sl, sle, el, si⟩ := s
  refine ⟨?_, ?_, ?_⟩
  · cases pc with
    | exited => simp [step]
    | outer => cases ss <;> cases q <;> simp [step]
    | inner =>
      cases q with
      | nil => simp [step]
      | cons m rest => cases hw : write m <;> simp [step, hw]
  · intro hpc
    dsimp only at hpc
    subst hpc
    cases ss <;> cases q <;> simp [step]
  · intro hpc
    dsimp only at hpc
    subst hpc
    rfl

/-- C7, witness: the sleep fires from the drained post-stop state of
`trC7a`, and the outer check (initial state) does not sleep. -/
theorem listener_sleep_characterization_witness :
    (exec noFailNat trC7a).pc = PC.inner ∧
    (exec noFailNat trC7a).queue = [] ∧
    (step noFailNat (exec noFailNat trC7a) LLabel.tick).sleeps =
      (exec noFailNat trC7a).sleeps + 1 ∧
    (step noFailNat (initL ℕ) LLabel.tick).sleeps = (initL ℕ).sleeps :=
  ⟨by decide, by decide,
    (listener_sleep_characterization noFailNat (exec noFailNat trC7a)).1.mpr
      ⟨by decide, by decide⟩,
    (listener_sleep_characterization noFailNat (initL ℕ)).2.1 rfl⟩

/-- C9: messages are tagged with their producer id (first component).  For
every interleaving and every producer `p`, the sequence of `p`'s messages
passed to the sink is a prefix of the sequence of `p`'s messages in enqueue
order — FIFO per producer; and two concrete interleavings of the same two
producers deliver their messages to the sink in opposite global orders — no
cross-producer ordering guarantee. -/
theorem fifo_per_producer_no_cross_order (write : ℕ × ℕ → Option String)
    (tr : List (LLabel (ℕ × ℕ))) (p : ℕ) :
    ((exec write tr).attempts.filter (fun m => m.1 == p)) <+:
      ((exec write tr).enqLog.filter (fun m => m.1 == p)) ∧
    (exec noFailPair trC9a).attempts = [(1, 10), (2, 20)] ∧
    (exec noFailPair trC9b).attempts = [(2, 20), (1, 10)] := by
  refine ⟨?_, by decide, by decide⟩
  obtain ⟨h1, -, -, -⟩ := exec_LInv write tr
  rw [h1, List.filter_append]
  exact ⟨_, rfl⟩

/-- C8, counterexample: on a file whose first line matches the pattern with
clean floats and whose second line passes the substring test and the regex
but carries the non-float fitness field `1..5` (the class `[\d\.]+` admits
it), `float()` raises an uncaught `ValueError` and `parse_log_file` crashes:
it extracts no entries at all, although the first line is one the claim says
must yield an entry. -/
theorem parse_invalid_float_crash_cex :
    parseLogFile "log.txt" (some [lineGood, lineBad]) =
      Except.error (PyErr.valueError "1..5") ∧
    extract lineGood = some ("B", 2, 1) ∧
    lineHasNewBest lineBad = true ∧
    (searchLine lineBad).isSome = true := by
  refine ⟨?_, ?_, ?_, ?_⟩ <;> decide

/-- C8, amended: whenever `parse_log_file` returns normally, its entries
come from exactly those lines that contain the substring `NEW BEST` and
match the source pattern with numeric fields that are valid float literals
(in order, via `extract`), and the run numbers start at 1 and step by the
chain rule: incremented exactly when an entry's time is strictly smaller
than the immediately preceding extracted entry's time (hence non-decreasing).
Lines whose regex-matched numeric fields are not valid float literals
instead abort the whole parse with an uncaught `ValueError`. -/
theorem parse_ok_entries_and_runs (path : String) (lines : List String)
    (data : List Entry) (outs : List String)
    (h : parseLogFile path (some lines) = Except.ok (data, outs)) :
    data.map projT = lines.filterMap extract ∧ runsOkB data = true := by
  simp only [parseLogFile] at h
  cases hf : List.foldlM stepLine initPState lines with
  | error e =>
    rw [hf] at h
    simp [Except.map] at h
  | ok st' =>
    rw [hf] at h
    have hde : st'.data = data := by
      simp only [Except.map, Except.ok.injEq, Prod.mk.injEq] at h
      exact h.1
    have hst := foldlM_stepLine_ok lines initPState st' hf
    constructor
    · rw [← hde, hst, foldl_applyEntry_data]
      simp [initPState]
    · rw [← hde, hst]
      exact (foldl_applyEntry_PWf (lines.filterMap extract) initPState
        initPState_PWf).1

/-- C8, witness: `linesC8` parses into two entries whose times decrease
between them, producing run numbers 1 and 2. -/
theorem parse_ok_entries_witness :
    parseLogFile "log.txt" (some linesC8) = Except.ok (dataC8, []) ∧
    (dataC8.map projT = linesC8.filterMap extract ∧ runsOkB dataC8 = true) :=
  ⟨by decide,
    parse_ok_entries_and_runs "log.txt" linesC8 dataC8 [] (by decide)⟩
